import Mathlib

set_option maxRecDepth 8000

/-!
Shallow embedding of the virtual-staging generation pipeline of the
`decorator` repository: image-geometry utilities (letterbox / crop),
data-URL codec helpers, plan parsing, the two `generateDesignConcept`
variants, the object-identification `generateDesign` variant, and the
application state machine of `App.tsx`.

Strings of the TypeScript source are modelled as Lean `String` (or
`List Char` where character-level scanning is needed); JavaScript
promises become `Except String`; the remote generative service is an
explicit function argument; `JSON.parse` is an explicit parameter
`jparse` together with a small JSON value type, since it is a host
builtin, not repository code.
-/

/- ## Definitions -/

/-- Split a character list at the FIRST occurrence of the separator
`sep`, returning the part before and the part after the separator.
Returns `none` when `sep` does not occur.  This models the leftmost
behaviour of JavaScript substring search and lazy regexes. -/
def splitFirst (sep : List Char) : List Char → Option (List Char × List Char)
| [] => if sep = [] then some ([], []) else none
| c :: cs =>
  if sep.isPrefixOf (c :: cs) then some ([], (c :: cs).drop sep.length)
  else match splitFirst sep cs with
       | none => none
       | some (b, a) => some (c :: b, a)

/-- Split a character list on every occurrence of the character `c`,
as JavaScript `String.prototype.split` does for a one-character
separator. -/
def splitOnCharList (c : Char) : List Char → List (List Char)
| [] => [[]]
| x :: xs =>
  let rest := splitOnCharList c xs
  if x = c then [] :: rest
  else match rest with
       | [] => [[x]]
       | r :: rs => (x :: r) :: rs

/-- The characters the JavaScript regex dot does not match: the line
terminators LF, CR, LINE SEPARATOR and PARAGRAPH SEPARATOR. -/
def isLineTerminator (c : Char) : Bool :=
  c = Char.ofNat 10 || c = Char.ofNat 13 || c = Char.ofNat 8232 || c = Char.ofNat 8233

/-- The lazy group `(.*?);` attempted at one start position: the
characters strictly before the first semicolon, or `none` when no
semicolon occurs or a line terminator (which the dot cannot match)
appears before the first semicolon. -/
def takeUntilSemi : List Char → Option (List Char)
| [] => none
| c :: cs =>
  if c = ';' then some []
  else if isLineTerminator c then none
  else (takeUntilSemi cs).map (fun g => c :: g)

/-- Model of the JavaScript regex match `/:(.*?);/` applied to a data-URL
header: the captured group of the leftmost match, i.e. the characters
between the first colon whose lazy group attempt succeeds (a semicolon
follows it with no line terminator in between) and that semicolon; a
failed attempt moves the start position on, as the regex engine does. -/
def mimeMatch : List Char → Option (List Char)
| [] => none
| c :: cs =>
  if c = ':' then
    match takeUntilSemi cs with
    | some g => some g
    | none => mimeMatch cs
  else mimeMatch cs

/-- The opening curly bracket character. -/
def obrace : Char := Char.ofNat 123

/-- The closing curly bracket character. -/
def cbrace : Char := Char.ofNat 125

inductive Json where
| null : Json
| bool (b : Bool) : Json
| num (q : ℚ) : Json
| str (s : String) : Json
| arr (items : List Json) : Json
| obj (fields : List (String × Json)) : Json

/-- Field access on a JSON value: `j.k` in JavaScript.  Yields `none`
(JavaScript `undefined`) when the value is not an object or lacks the
key. -/
def Json.getField : Json → String → Option Json
| .obj fs, k => (fs.find? (fun p => p.fst = k)).map Prod.snd
| _, _ => none

/-- A string-valued field, `none` when absent or not a string. -/
def Json.strField (j : Json) (k : String) : Option String :=
  match j.getField k with
  | some (.str s) => some s
  | _ => none

/-- Whether the value is an object carrying the key (JavaScript
`k in j`). -/
def Json.hasKey (j : Json) (k : String) : Bool :=
  (j.getField k).isSome

/-- An axis-aligned rectangle: position and size, in pixels. -/
structure PlacedRect where
  x : ℚ
  y : ℚ
  w : ℚ
  h : ℚ
deriving DecidableEq

/-- The placement of the scaled source image inside the square canvas of
`resizeImage` (src/unnamed/part_004 lines 88-98): the longer side is
scaled to `targetDimension`, the image is centered, the rest is black
padding. -/
def resizePlacement (imgWidth imgHeight targetDimension : ℚ) : PlacedRect :=
  let aspectRatio := imgWidth / imgHeight
  let newWidth := if aspectRatio > 1 then targetDimension else targetDimension * aspectRatio
  let newHeight := if aspectRatio > 1 then targetDimension / aspectRatio else targetDimension
  { x := (targetDimension - newWidth) / 2
  , y := (targetDimension - newHeight) / 2
  , w := newWidth
  , h := newHeight }

/-- The content rectangle cut out of the square image by
`cropToOriginalAspectRatio` (src/unnamed/part_004 lines 48-58): same
aspect-ratio branch as the letterbox step, centered. -/
def cropRect (originalWidth originalHeight targetDimension : ℚ) : PlacedRect :=
  let aspectRatio := originalWidth / originalHeight
  let contentWidth := if aspectRatio > 1 then targetDimension else targetDimension * aspectRatio
  let contentHeight := if aspectRatio > 1 then targetDimension / aspectRatio else targetDimension
  { x := (targetDimension - contentWidth) / 2
  , y := (targetDimension - contentHeight) / 2
  , w := contentWidth
  , h := contentHeight }

/-- An inline image part returned by the remote service: MIME type,
base64 payload, and the intrinsic pixel dimensions of the encoded
bitmap. -/
structure InlineData where
  mimeType : String
  data : String
  w : ℚ
  h : ℚ
deriving DecidableEq

/-- A displayable image value: either decoded from an inline part (a
data URL), or produced by the letterbox / crop canvas operations. -/
inductive Image where
| fromInline (d : InlineData) : Image
| letterboxed (src : Image) (targetDimension : ℚ) : Image
| cropped (src : Image) (r : PlacedRect) : Image
deriving DecidableEq

/-- Pixel width of a displayable image: the letterbox canvas is
`targetDimension` wide, a crop canvas is as wide as the content
rectangle (`canvas.width = contentWidth` in the source). -/
def Image.width : Image → ℚ
| .fromInline d => d.w
| .letterboxed _ t => t
| .cropped _ r => r.w

/-- Pixel height of a displayable image. -/
def Image.height : Image → ℚ
| .fromInline d => d.h
| .letterboxed _ t => t
| .cropped _ r => r.h

/-- `resizeImage` (src/unnamed/part_004 lines 72-112): letterbox the
source into a `targetDimension` square.  The placement of the content
inside the square is `resizePlacement` of the source dimensions. -/
def resizeImage (img : Image) (targetDimension : ℚ) : Image :=
  Image.letterboxed img targetDimension

/-- `cropToOriginalAspectRatio` (src/unnamed/part_004 lines 38-69): crop
the centered content rectangle computed from the original dimensions out
of the square image. -/
def cropToOriginalAspectRatio (img : Image) (originalWidth originalHeight targetDimension : ℚ) : Image :=
  Image.cropped img (cropRect originalWidth originalHeight targetDimension)

/-- A part of a remote-model response: plain text or inline image data
(`part.inlineData` present). -/
inductive RespPart where
| textPart (s : String) : RespPart
| inlinePart (d : InlineData) : RespPart
deriving DecidableEq

/-- The inline data of a part, when present. -/
def RespPart.getInlineData : RespPart → Option InlineData
| .textPart _ => none
| .inlinePart d => some d

/-- `parts.find(part => part.inlineData)`: the first part of a response
that carries inline image data. -/
def findInlinePart (parts : List RespPart) : Option InlineData :=
  match parts.find? (fun p => p.getInlineData.isSome) with
  | none => none
  | some p => p.getInlineData

/-- A design plan entry of the first `generateDesignConcept` variant
(title, description and an explicit image prompt). -/
structure DesignPlan where
  designTitle : String
  designDescription : String
  imagePrompt : String
deriving DecidableEq

/-- A design plan entry of the second `generateDesignConcept` variant
(title and description only). -/
structure TextDesign where
  designTitle : String
  designDescription : String
deriving DecidableEq

/-- A final design result: title, displayable redesigned image,
description. -/
structure DesignResult where
  designTitle : String
  redesignedImageUrl : Image
  designDescription : String
deriving DecidableEq

/-- Reading a plan record out of a parsed JSON entry.  The source uses
the fields untyped; this model reads string fields and falls back to
the JavaScript stringification of `undefined` otherwise (all theorems
below only exercise string-valued fields). -/
def decodePlan (j : Json) : DesignPlan :=
  { designTitle := (j.strField "designTitle").getD "undefined"
  , designDescription := (j.strField "designDescription").getD "undefined"
  , imagePrompt := (j.strField "imagePrompt").getD "undefined" }

/-- Reading a two-field plan record out of a parsed JSON entry (second
variant). -/
def decodeTextDesign (j : Json) : TextDesign :=
  { designTitle := (j.strField "designTitle").getD "undefined"
  , designDescription := (j.strField "designDescription").getD "undefined" }

/-- JavaScript whitespace as removed by `String.prototype.trim` (the
characters that occur in practice at the ends of a model response). -/
def isJsWhitespace (c : Char) : Bool :=
  c = ' ' || c = (Char.ofNat 10) || c = (Char.ofNat 9) || c = (Char.ofNat 13)

/-- `text.trim()`: strip whitespace from both ends. -/
def trimChars (cs : List Char) : List Char :=
  ((cs.dropWhile isJsWhitespace).reverse.dropWhile isJsWhitespace).reverse

/-- The brace-extraction step shared by both `generateDesignConcept`
variants: take the substring from the first opening curly bracket to the
last closing curly bracket of the (trimmed) response text, or `none` if
either is missing or the last closer precedes the first opener. -/
def extractBraced (text : String) : Option String :=
  let cs := trimChars text.data
  match cs.findIdx? (fun c => c = obrace) with
  | none => none
  | some startIndex =>
    match cs.reverse.findIdx? (fun c => c = cbrace) with
    | none => none
    | some revIdx =>
      let endIndex := cs.length - 1 - revIdx
      if endIndex < startIndex then none
      else some ((cs.drop startIndex).take (endIndex + 1 - startIndex)).asString

/-- Plan parsing of the first `generateDesignConcept` variant
(src/unnamed/part_004 lines 253-270): extract the braced substring,
parse it as JSON (failures of either step are caught and rethrown as the
plan-parse error), then require a `designs` array of exactly two
entries. -/
def parsePlansV1 (jparse : String → Option Json) (text : String) : Except String (List Json) :=
  match extractBraced text with
  | none => .error "The AI failed to return a valid design plan. Please try again."
  | some jsonString =>
    match jparse jsonString with
    | none => .error "The AI failed to return a valid design plan. Please try again."
    | some parsed =>
      match parsed.getField "designs" with
      | some (.arr ds) =>
        if ds.length = 2 then .ok ds
        else .error "The design plan was incomplete or malformed."
      | _ => .error "The design plan was incomplete or malformed."

/-- Plan parsing of the second `generateDesignConcept` variant
(src/unnamed/part_004 lines 404-416): extract the braced substring
(error if absent), parse it as JSON (an uncaught parse exception also
aborts), then read `resultJson.designs` WITHOUT any count or shape
check; a missing or non-array `designs` value makes the subsequent
for-of loop throw. -/
def parsePlansV2 (jparse : String → Option Json) (text : String) : Except String (List Json) :=
  match extractBraced text with
  | none => .error "Could not find a valid JSON object in the model response."
  | some jsonString =>
    match jparse jsonString with
    | none => .error "SyntaxError: JSON.parse failed"
    | some parsed =>
      match parsed.getField "designs" with
      | some (.arr ds) => .ok ds
      | _ => .error "TypeError: designs is not iterable"

/-- An interaction with the remote image-synthesis service, in program
order: the call numbered `i` being started, or its response being
awaited. -/
inductive SynthEvent where
| issue (i : ℕ) : SynthEvent
| awaited (i : ℕ) : SynthEvent
deriving DecidableEq

/-- `Promise.all`: succeeds with the list of results in input order when
every promise succeeds, fails as soon as any promise fails. -/
def promiseAll {α : Type} : List (Except String α) → Except String (List α)
| [] => .ok []
| .error e :: _ => .error e
| .ok a :: rest =>
  match promiseAll rest with
  | .error e => .error e
  | .ok as => .ok (a :: as)

/-- The error message of the first variant when a synthesis response for
a plan contains no inline image part. -/
def missingImageMsg (title : String) : String :=
  "The AI model did not return a redesigned image for " ++ title ++ ". Please try again."

/-- Assembly step of the first variant for one plan (src/unnamed/part_004
lines 284-303): find the first inline-image part of the response (error
naming the design title if absent), build its data URL, crop it back to
the original aspect ratio, and pair it with the plan text. -/
def buildDesignV1 (originalWidth originalHeight maxDimension : ℚ)
    (plan : DesignPlan) (responseParts : List RespPart) : Except String DesignResult :=
  match findInlinePart responseParts with
  | none => .error (missingImageMsg plan.designTitle)
  | some d =>
    .ok { designTitle := plan.designTitle
        , redesignedImageUrl :=
            cropToOriginalAspectRatio (Image.fromInline d) originalWidth originalHeight maxDimension
        , designDescription := plan.designDescription }

/-- The `Promise.all` over the per-plan assembly of the first variant:
all results in plan order, or the first failure. -/
def assembleV1 (originalWidth originalHeight maxDimension : ℚ)
    (plans : List DesignPlan) (responses : List (List RespPart)) : Except String (List DesignResult) :=
  promiseAll ((plans.zip responses).map
    (fun pr => buildDesignV1 originalWidth originalHeight maxDimension pr.fst pr.snd))

/-- Image-synthesis stage of the first variant (src/unnamed/part_004
lines 272-303): the `.map` issues all synthesis calls first, then
`Promise.all` awaits them (all issue events precede all await events in
program order), the joined responses are assembled per plan.  `synth i`
is the response of the i-th dispatched call, `.error` modelling a
rejected remote call. -/
def runV1 (synth : ℕ → Except String (List RespPart))
    (originalWidth originalHeight maxDimension : ℚ) (plans : List DesignPlan) :
    Except String (List DesignResult) × List SynthEvent :=
  let n := plans.length
  let trace := (List.range n).map SynthEvent.issue ++ (List.range n).map SynthEvent.awaited
  match promiseAll ((List.range n).map synth) with
  | .error e => (.error e, trace)
  | .ok responses => (assembleV1 originalWidth originalHeight maxDimension plans responses, trace)

/-- Image-synthesis stage of the second variant (src/unnamed/part_004
lines 620-655): a sequential for-of loop.  Each iteration issues one
call and immediately awaits it; a rejected remote call aborts the loop
(later calls are never issued); a response WITHOUT an inline image part
is skipped with a console warning and the loop continues. -/
def runV2 (synth : ℕ → Except String (List RespPart)) :
    ℕ → List TextDesign → Except String (List DesignResult) × List SynthEvent
| _, [] => (.ok [], [])
| i, plan :: rest =>
  match synth i with
  | .error e => (.error e, [SynthEvent.issue i, SynthEvent.awaited i])
  | .ok parts =>
    let tail := runV2 synth (i + 1) rest
    let events := SynthEvent.issue i :: SynthEvent.awaited i :: tail.snd
    match findInlinePart parts with
    | none => (tail.fst, events)
    | some d =>
      match tail.fst with
      | .error e => (.error e, events)
      | .ok results =>
        (.ok ({ designTitle := plan.designTitle
              , redesignedImageUrl := Image.fromInline d
              , designDescription := plan.designDescription } :: results), events)

/-- The first `generateDesignConcept` variant, from plan-response text
to final designs: parse the plan (aborting with no synthesis call
issued on failure), then dispatch and assemble. -/
def generateDesignConceptV1 (jparse : String → Option Json) (plannerText : String)
    (synth : ℕ → Except String (List RespPart))
    (originalWidth originalHeight maxDimension : ℚ) :
    Except String (List DesignResult) × List SynthEvent :=
  match parsePlansV1 jparse plannerText with
  | .error e => (.error e, [])
  | .ok ds => runV1 synth originalWidth originalHeight maxDimension (ds.map decodePlan)

/-- The second `generateDesignConcept` variant, from plan-response text
to final designs: parse (no count check), then the sequential synthesis
loop; no aspect-ratio crop is applied to the returned images. -/
def generateDesignConceptV2 (jparse : String → Option Json) (plannerText : String)
    (synth : ℕ → Except String (List RespPart)) :
    Except String (List DesignResult) × List SynthEvent :=
  match parsePlansV2 jparse plannerText with
  | .error e => (.error e, [])
  | .ok ds => runV2 synth 0 (ds.map decodeTextDesign)

/-- A transmittable inline image: MIME type plus base64 payload, as
embedded at the remote-call boundary. -/
structure TransImage where
  mimeType : List Char
  data : List Char
deriving DecidableEq

/-- Building a displayable data-URL reference from a transmittable
image, as the source template literals do everywhere a generated image
is turned into a URL: `data:` ++ MIME type ++ `;base64,` ++ payload. -/
def mkDataUrl (t : TransImage) : List Char :=
  ("data:").data ++ t.mimeType ++ (";base64,").data ++ t.data

/-- `dataUrlToPart` (src/unnamed/part_004 lines 132-140): split the
reference on commas, fail if there is no comma; match the MIME type out
of the header with `/:(.*?);/`, fail if there is no match or the
captured group is empty (a falsy `mimeMatch[1]`); otherwise return the
MIME type paired with the segment after the first comma. -/
def dataUrlToPart (dataUrl : List Char) : Except String TransImage :=
  let arr := splitOnCharList ',' dataUrl
  if arr.length < 2 then .error "Invalid data URL"
  else
    match mimeMatch (arr.headD []) with
    | none => .error "Could not parse MIME type from data URL"
    | some m =>
      if m = [] then .error "Could not parse MIME type from data URL"
      else .ok { mimeType := m, data := (arr.drop 1).headD [] }

/-- The result type of `dataUrlToGenerativePart`: the payload is `none`
when the destructured `data` position is JavaScript `undefined`. -/
structure GenPartData where
  mimeType : List Char
  data : Option (List Char)
deriving DecidableEq

/-- `dataUrlToGenerativePart` (src/unnamed/part_004 lines 350-356, and
the identical copy at lines 529-535): destructure the comma split into
header and payload (payload `undefined` when there is no comma), default
the MIME type to `image/png` when the header regex does not match; this
function never fails. -/
def dataUrlToGenerativePart (dataUrl : List Char) : GenPartData :=
  let arr := splitOnCharList ',' dataUrl
  let header := arr.headD []
  let data := (arr.drop 1).head?
  { mimeType := match mimeMatch header with
                | some m => if m = [] then ("image/png").data else m
                | none => ("image/png").data
  , data := data }

/-- Extraction of the fenced JSON block of `parseProductResponse`
(src/unnamed/part_003 line 27): the leftmost match of the lazy regex,
i.e. the text between the first occurrence of a json code fence opener
and the first subsequent fence closer. -/
def extractFencedJson (text : List Char) : Option (List Char) :=
  match splitFirst ("```json\n").data text with
  | none => none
  | some (_, rest) =>
    match splitFirst ("\n```").data rest with
    | none => none
    | some (content, _) => some content

/-- The validation applied to the parsed fenced block: it must be an
array whose every element is an object carrying both an `objectName`
and a `products` key (src/unnamed/part_003 line 30). -/
def isValidProductArray : Json → Bool
| .arr items => items.all (fun it => it.hasKey "objectName" && it.hasKey "products")
| _ => false

/-- `parseProductResponse` (src/unnamed/part_003 lines 25-40): extract
the fenced JSON block and parse it; on any failure — no fence, a JSON
parse exception (caught), a non-array value, or an element missing the
required keys — fall through and return the empty list.  Elements are
kept as raw JSON values, as the source only casts them. -/
def parseProductResponse (jparse : List Char → Option Json) (responseText : List Char) : List Json :=
  match extractFencedJson responseText with
  | none => []
  | some block =>
    match jparse block with
    | none => []
    | some parsed =>
      if isValidProductArray parsed then
        match parsed with
        | .arr items => items
        | _ => []
      else []

/-- The result record of `generateDesign`: the generated image as a
data URL plus the identified objects. -/
structure GenerationResult where
  imageUrl : List Char
  identifiedObjects : List Json

/-- `generateDesign` (src/unnamed/part_003 lines 42-125): find the first
inline part of the image-generation response (fatal error when absent),
then parse the product-finder response text — whose failures are
swallowed — and resolve with the image data URL and the identified
objects. -/
def generateDesign (jparse : List Char → Option Json)
    (imageGenParts : List RespPart) (productResponseText : List Char) :
    Except String GenerationResult :=
  match findInlinePart imageGenParts with
  | none => .error "Could not generate a new image."
  | some d =>
    .ok { imageUrl := ("data:").data ++ d.mimeType.data ++ (";base64,").data ++ d.data.data
        , identifiedObjects := parseProductResponse jparse productResponseText }

/-- The stage of the application session. -/
inductive Stage where
| upload : Stage
| generating : Stage
| results : Stage
| errorStage : Stage
deriving DecidableEq

/-- The session state held by the `App` component: stage, design list,
active design index, optional edited-image override, last error, the
edit-in-flight flag, and the last in-place alert message. -/
structure AppState where
  stage : Stage
  designs : List DesignResult
  activeDesignIndex : ℕ
  editedImageUrl : Option Image
  errorMsg : Option String
  isEditing : Bool
  alertMsg : Option String
deriving DecidableEq

/-- `handleSelectDesign` of `src/App.tsx` lines 71-76: only when the
selected index differs from the active one does it set the new index and
clear the edited-image override; selecting the active design is a
no-op. -/
def handleSelectDesign (s : AppState) (index : ℕ) : AppState :=
  if index ≠ s.activeDesignIndex then
    { s with activeDesignIndex := index, editedImageUrl := none }
  else s

/-- `handleSelectDesign` of `src/unnamed/part_000` lines 95-98:
unconditionally set the index and clear the edited-image override. -/
def handleSelectDesignAlways (s : AppState) (index : ℕ) : AppState :=
  { s with activeDesignIndex := index, editedImageUrl := none }

/-- `handleEditPrompt` of `src/App.tsx` lines 78-93: return unchanged
when there is no design at the active index; otherwise run the edit
client (`editFn`) on the currently displayed image — the override when
present, else the base image of the active design.  On success store
the new image as the override; on failure show an alert.  In both cases
the error field was cleared and the editing flag ends false; the stage,
the design list, the active index are never touched, and on failure the
override keeps its prior value. -/
def handleEditPrompt (editFn : Image → Except String Image) (s : AppState) : AppState :=
  match s.designs.get? s.activeDesignIndex with
  | none => s
  | some d =>
    let baseImage := s.editedImageUrl.getD d.redesignedImageUrl
    match editFn baseImage with
    | .ok newImage =>
      { s with errorMsg := none, editedImageUrl := some newImage, isEditing := false }
    | .error e =>
      { s with errorMsg := none, alertMsg := some ("Failed to apply edit: " ++ e)
             , isEditing := false }

/-- A concrete two-design planner response, as raw JSON text (the
whole response is the JSON object, so brace extraction returns it
unchanged). -/
def plannerJson2 : String :=
  "\x7b\x22designs\x22:[\x7b\x22designTitle\x22:\x22Elegant Refresh\x22,\x22designDescription\x22:\x22desc a\x22,\x22imagePrompt\x22:\x22prompt a\x22\x7d,\x7b\x22designTitle\x22:\x22Cozy Minimalist\x22,\x22designDescription\x22:\x22desc b\x22,\x22imagePrompt\x22:\x22prompt b\x22\x7d]\x7d"

/-- The JSON value `JSON.parse` produces on `plannerJson2`. -/
def planValue2 : Json :=
  Json.obj [("designs", Json.arr
    [ Json.obj [("designTitle", Json.str "Elegant Refresh"),
                ("designDescription", Json.str "desc a"),
                ("imagePrompt", Json.str "prompt a")]
    , Json.obj [("designTitle", Json.str "Cozy Minimalist"),
                ("designDescription", Json.str "desc b"),
                ("imagePrompt", Json.str "prompt b")]])]

/-- A concrete `JSON.parse` behaving as the host parser does on the one
string these scenarios feed it. -/
def jparsePlans2 : String → Option Json :=
  fun s => if s = plannerJson2 then some planValue2 else none

/-- A remote synthesis stub: every call succeeds with a single square
1024 by 1024 inline PNG part. -/
def synthSquare : ℕ → Except String (List RespPart) :=
  fun _ => .ok [RespPart.inlinePart ⟨"image/png", "QUJD", 1024, 1024⟩]

/-- The results the first variant assembles in the scenario above for a
1600 by 900 original: both images cropped to the centered 1024 by 576
content rectangle. -/
def resultsV1 : List DesignResult :=
  [ { designTitle := "Elegant Refresh"
    , redesignedImageUrl :=
        Image.cropped (Image.fromInline ⟨"image/png", "QUJD", 1024, 1024⟩) (cropRect 1600 900 1024)
    , designDescription := "desc a" }
  , { designTitle := "Cozy Minimalist"
    , redesignedImageUrl :=
        Image.cropped (Image.fromInline ⟨"image/png", "QUJD", 1024, 1024⟩) (cropRect 1600 900 1024)
    , designDescription := "desc b" } ]

/-- A concrete single-design planner response for the second variant,
as raw JSON text. -/
def plannerJsonOne : String :=
  "\x7b\x22designs\x22:[\x7b\x22designTitle\x22:\x22Modern Minimalist\x22,\x22designDescription\x22:\x22light and airy\x22\x7d]\x7d"

/-- The JSON value `JSON.parse` produces on `plannerJsonOne`. -/
def planValueOne : Json :=
  Json.obj [("designs", Json.arr
    [ Json.obj [("designTitle", Json.str "Modern Minimalist"),
                ("designDescription", Json.str "light and airy")]])]

/-- A concrete `JSON.parse` for the single-design scenario. -/
def jparseOne : String → Option Json :=
  fun s => if s = plannerJsonOne then some planValueOne else none

/-- The design the second variant returns in that scenario: the raw
square inline image, with no crop applied. -/
def squareResultV2 : DesignResult :=
  { designTitle := "Modern Minimalist"
  , redesignedImageUrl := Image.fromInline ⟨"image/png", "QUJD", 1024, 1024⟩
  , designDescription := "light and airy" }

/-- A concrete THREE-design planner response, as raw JSON text. -/
def plannerJson3 : String :=
  "\x7b\x22designs\x22:[\x7b\x22designTitle\x22:\x22A\x22,\x22designDescription\x22:\x22da\x22\x7d,\x7b\x22designTitle\x22:\x22B\x22,\x22designDescription\x22:\x22db\x22\x7d,\x7b\x22designTitle\x22:\x22C\x22,\x22designDescription\x22:\x22dc\x22\x7d]\x7d"

/-- The JSON value `JSON.parse` produces on `plannerJson3`. -/
def planValue3 : Json :=
  Json.obj [("designs", Json.arr
    [ Json.obj [("designTitle", Json.str "A"), ("designDescription", Json.str "da")]
    , Json.obj [("designTitle", Json.str "B"), ("designDescription", Json.str "db")]
    , Json.obj [("designTitle", Json.str "C"), ("designDescription", Json.str "dc")]])]

/-- A concrete `JSON.parse` for the three-design scenario. -/
def jparseThree : String → Option Json :=
  fun s => if s = plannerJson3 then some planValue3 else none

/-- The three designs the second variant returns in that scenario. -/
def resultsV2three : List DesignResult :=
  [ { designTitle := "A"
    , redesignedImageUrl := Image.fromInline ⟨"image/png", "QUJD", 1024, 1024⟩
    , designDescription := "da" }
  , { designTitle := "B"
    , redesignedImageUrl := Image.fromInline ⟨"image/png", "QUJD", 1024, 1024⟩
    , designDescription := "db" }
  , { designTitle := "C"
    , redesignedImageUrl := Image.fromInline ⟨"image/png", "QUJD", 1024, 1024⟩
    , designDescription := "dc" } ]

/-- A concrete two-plan list. -/
def plansTwoC : List DesignPlan :=
  [ ⟨"Elegant Refresh", "desc a", "prompt a"⟩, ⟨"Cozy Minimalist", "desc b", "prompt b"⟩ ]

/-- A synthesis response carrying only text, no inline image part. -/
def respNoImage : List RespPart := [RespPart.textPart "here is a description instead"]

/-- Concrete responses in which the first design got no image. -/
def responsesMissingC : List (List RespPart) :=
  [respNoImage, [RespPart.inlinePart ⟨"image/png", "QUJD", 1024, 1024⟩]]

/-- A synthesis stub whose first call returns no image part and whose
later calls return a square inline JPEG. -/
def synthFirstMissing : ℕ → Except String (List RespPart) :=
  fun i => if i = 0 then .ok [RespPart.textPart "no image"]
           else .ok [RespPart.inlinePart ⟨"image/jpeg", "WkZB", 1024, 1024⟩]

/-- Concrete responses in which both designs got an image. -/
def responsesBothC : List (List RespPart) :=
  [ [RespPart.inlinePart ⟨"image/png", "QUJD", 1024, 1024⟩]
  , [RespPart.inlinePart ⟨"image/png", "REVG", 1024, 1024⟩] ]

/-- The assembled results for `plansTwoC` with `responsesBothC`. -/
def resultsBothC : List DesignResult :=
  [ { designTitle := "Elegant Refresh"
    , redesignedImageUrl :=
        Image.cropped (Image.fromInline ⟨"image/png", "QUJD", 1024, 1024⟩) (cropRect 1600 900 1024)
    , designDescription := "desc a" }
  , { designTitle := "Cozy Minimalist"
    , redesignedImageUrl :=
        Image.cropped (Image.fromInline ⟨"image/png", "REVG", 1024, 1024⟩) (cropRect 1600 900 1024)
    , designDescription := "desc b" } ]

/-- A concrete design result held in the session. -/
def edResult : DesignResult :=
  { designTitle := "Elegant Refresh"
  , redesignedImageUrl := Image.fromInline ⟨"image/png", "QUJD", 1024, 1024⟩
  , designDescription := "desc a" }

/-- A concrete results-stage session. -/
def stateResultsC : AppState :=
  { stage := Stage.results, designs := [edResult], activeDesignIndex := 0
  , editedImageUrl := none, errorMsg := none, isEditing := false, alertMsg := none }

/-- An edit client that always fails. -/
def editFnFail : Image → Except String Image := fun _ => .error "quota exhausted"

/-- A results-stage session with an active edited-image override. -/
def stateWithEditC : AppState :=
  { stateResultsC with
      editedImageUrl := some (Image.fromInline ⟨"image/png", "RURJVA", 1024, 576⟩) }

/-- Whether a synthesis event is an issue (call start). -/
def isIssueEvent : SynthEvent → Bool
| .issue _ => true
| .awaited _ => false

/-- Whether every issue event of a trace precedes every await event:
once an await occurs, no further call is started. -/
def allIssuedFirst : List SynthEvent → Bool
| [] => true
| .issue _ :: rest => allIssuedFirst rest
| .awaited _ :: rest => rest.all (fun e => ! isIssueEvent e)

/-- A synthesis stub whose first call is rejected by the remote
service. -/
def synthRejectFirst : ℕ → Except String (List RespPart) :=
  fun i => if i = 0 then .error "network failure"
           else .ok [RespPart.inlinePart ⟨"image/png", "QUJD", 1024, 1024⟩]

/-- The two text designs of the concrete two-design plan. -/
def plansTextTwo : List TextDesign :=
  [ ⟨"Elegant Refresh", "desc a"⟩, ⟨"Cozy Minimalist", "desc b"⟩ ]

/- ## Theorems -/

/-- The width/height ratio of the crop content rectangle equals the
original aspect ratio, exactly, over the rationals. -/
theorem cropRect_ratio (W H S : ℚ) (hW : 0 < W) (hH : 0 < H) (hS : 0 < S) :
    (cropRect W H S).w / (cropRect W H S).h = W / H := by
  have hS0 : S ≠ 0 := ne_of_gt hS
  have hH0 : H ≠ 0 := ne_of_gt hH
  have hW0 : W ≠ 0 := ne_of_gt hW
  have ha : W / H ≠ 0 := div_ne_zero hW0 hH0
  unfold cropRect
  by_cases h : W / H > 1
  · simp only [h, if_true]
    rw [div_div_eq_mul_div, mul_comm, mul_div_assoc, div_self hS0, mul_one]
  · simp only [h, if_false]
    rw [mul_comm, mul_div_assoc, div_self hS0, mul_one]

/-- `promiseAll` succeeds exactly on lists of successes, and then
returns as many results as inputs. -/
theorem promiseAll_ok_length {α : Type} (xs : List (Except String α)) (rs : List α)
    (h : promiseAll xs = .ok rs) : rs.length = xs.length := by
  induction xs generalizing rs with
  | nil => simp [promiseAll] at h; simp [← h]
  | cons x xs ih =>
    cases x with
    | error e => simp [promiseAll] at h
    | ok a =>
      simp only [promiseAll] at h
      cases hrec : promiseAll xs with
      | error e => rw [hrec] at h; simp at h
      | ok as =>
        rw [hrec] at h
        simp at h
        subst h
        simp [ih as hrec]

/-- Every result of a successful `promiseAll` over a mapped list comes
from some input element. -/
theorem promiseAll_ok_mem {α β : Type} (f : α → Except String β) (xs : List α) (rs : List β)
    (h : promiseAll (xs.map f) = .ok rs) : ∀ r ∈ rs, ∃ x ∈ xs, f x = .ok r := by
  induction xs generalizing rs with
  | nil => simp [promiseAll] at h; subst h; simp
  | cons x xs ih =>
    simp only [List.map_cons] at h
    cases hx : f x with
    | error e => rw [hx] at h; simp [promiseAll] at h
    | ok b =>
      rw [hx] at h
      simp only [promiseAll] at h
      cases hrec : promiseAll (xs.map f) with
      | error e => rw [hrec] at h; simp at h
      | ok bs =>
        rw [hrec] at h
        simp at h
        subst h
        intro r hr
        rcases List.mem_cons.mp hr with h1 | h2
        · exact ⟨x, List.mem_cons_self x xs, by rw [hx, h1]⟩
        · rcases ih bs hrec r h2 with ⟨x2, hx2, hfx2⟩
          exact ⟨x2, List.mem_cons_of_mem x hx2, hfx2⟩

/-- Indexwise description of a successful `promiseAll` over a mapped
list: the i-th result is the success value of `f` on the i-th input. -/
theorem promiseAll_ok_get {α β : Type} (f : α → Except String β) (xs : List α) (rs : List β)
    (h : promiseAll (xs.map f) = .ok rs) :
    ∀ i (h1 : i < xs.length) (h2 : i < rs.length), f (xs.get ⟨i, h1⟩) = .ok (rs.get ⟨i, h2⟩) := by
  induction xs generalizing rs with
  | nil => intro i h1; simp at h1
  | cons x xs ih =>
    simp only [List.map_cons] at h
    cases hx : f x with
    | error e => rw [hx] at h; simp [promiseAll] at h
    | ok b =>
      rw [hx] at h
      simp only [promiseAll] at h
      cases hrec : promiseAll (xs.map f) with
      | error e => rw [hrec] at h; simp at h
      | ok bs =>
        rw [hrec] at h
        simp at h
        subst h
        intro i h1 h2
        cases i with
        | zero => simpa using hx
        | succ j =>
          simp only [List.get_cons_succ]
          exact ih bs hrec j (by simpa using h1) (by simpa using h2)

/-- A `promiseAll` over a mapped list fails whenever `f` fails on some
input whose failures are characterised by a predicate: the overall
error is the error of the FIRST such input. -/
theorem promiseAll_error_first {α β : Type} (f : α → Except String β) (xs : List α)
    (hex : ∃ x ∈ xs, ∃ e, f x = .error e) :
    ∃ x ∈ xs, ∃ e, f x = .error e ∧ promiseAll (xs.map f) = .error e := by
  induction xs with
  | nil => simp at hex
  | cons x xs ih =>
    cases hx : f x with
    | error e =>
      exact ⟨x, List.mem_cons_self x xs, e, hx, by simp [promiseAll, hx]⟩
    | ok b =>
      have hex2 : ∃ y ∈ xs, ∃ e, f y = .error e := by
        rcases hex with ⟨y, hy, e, hfy⟩
        rcases List.mem_cons.mp hy with h1 | h2
        · subst h1; rw [hx] at hfy; simp at hfy
        · exact ⟨y, h2, e, hfy⟩
      rcases ih hex2 with ⟨y, hy, e, hfy, hall⟩
      refine ⟨y, List.mem_cons_of_mem x hy, e, hfy, ?_⟩
      simp [promiseAll, hx, hall]

/-- C2: for every image with positive original width `W` and height `H`
and every positive target size `S`, the crop rectangle computed by
`cropToOriginalAspectRatio` coincides exactly with the content placement
of the forward letterbox step `resizeImage` (both select the identical
aspect-ratio branch and the crop rectangle is centered exactly over the
letterboxed content), and composing the forward letterbox with the
inverse crop yields an image whose aspect ratio equals `W / H` exactly
over the rationals (the rounding tolerance of the spec covers the
browser canvas rounding). -/
theorem crop_letterbox_roundtrip_aspect (W H S : ℚ) (img : Image)
    (hW : 0 < W) (hH : 0 < H) (hS : 0 < S) :
    cropRect W H S = resizePlacement W H S ∧
    (cropToOriginalAspectRatio (resizeImage img S) W H S).width /
      (cropToOriginalAspectRatio (resizeImage img S) W H S).height = W / H := by
  refine ⟨rfl, ?_⟩
  simpa [cropToOriginalAspectRatio, resizeImage, Image.width, Image.height] using
    cropRect_ratio W H S hW hH hS

/-- Witness for C2: a 1600 by 900 upload letterboxed into a 1024 square
and cropped back has aspect ratio 1600 / 900. -/
theorem crop_letterbox_roundtrip_aspect_witness :
    (0:ℚ) < 1600 ∧ (0:ℚ) < 900 ∧ (0:ℚ) < 1024 ∧
    (cropRect 1600 900 1024 = resizePlacement 1600 900 1024 ∧
     (cropToOriginalAspectRatio
        (resizeImage (Image.fromInline ⟨"image/jpeg", "abc", 1600, 900⟩) 1024) 1600 900 1024).width /
       (cropToOriginalAspectRatio
        (resizeImage (Image.fromInline ⟨"image/jpeg", "abc", 1600, 900⟩) 1024) 1600 900 1024).height
       = 1600 / 900) :=
  ⟨by norm_num, by norm_num, by norm_num,
   crop_letterbox_roundtrip_aspect 1600 900 1024 (Image.fromInline ⟨"image/jpeg", "abc", 1600, 900⟩)
     (by norm_num) (by norm_num) (by norm_num)⟩

/-- Shape of a successful per-plan assembly in the first variant: an
inline part was found and the result pairs the plan text with the
cropped image. -/
theorem buildDesignV1_ok (W H S : ℚ) (plan : DesignPlan) (parts : List RespPart) (r : DesignResult)
    (h : buildDesignV1 W H S plan parts = .ok r) :
    ∃ d, findInlinePart parts = some d ∧
      r.designTitle = plan.designTitle ∧
      r.designDescription = plan.designDescription ∧
      r.redesignedImageUrl = cropToOriginalAspectRatio (Image.fromInline d) W H S := by
  unfold buildDesignV1 at h
  cases hf : findInlinePart parts with
  | none => rw [hf] at h; simp at h
  | some d =>
    rw [hf] at h
    simp only [Except.ok.injEq] at h
    exact ⟨d, rfl, by rw [← h], by rw [← h], by rw [← h]⟩

/-- The result component of the synthesis stage of the first variant:
join the remote responses, then assemble per plan. -/
theorem runV1_fst (synth : ℕ → Except String (List RespPart)) (W H S : ℚ)
    (plans : List DesignPlan) :
    (runV1 synth W H S plans).1 =
      (match promiseAll ((List.range plans.length).map synth) with
       | .error e => .error e
       | .ok responses => assembleV1 W H S plans responses) := by
  unfold runV1
  cases hall : promiseAll ((List.range plans.length).map synth) with
  | error e => simp [hall]
  | ok responses => simp [hall]

/-- C1 (amended): in the FIRST `generateDesignConcept` variant, every
successful call crops each synthesized image back to the original
aspect ratio before assembling the `DesignResult`: every returned
`redesignedImageUrl` is a `cropToOriginalAspectRatio` of an inline
response image and its aspect ratio equals the original `W / H`. -/
theorem v1_designs_cropped_to_original_aspect
    (jparse : String → Option Json) (plannerText : String)
    (synth : ℕ → Except String (List RespPart)) (W H S : ℚ)
    (hW : 0 < W) (hH : 0 < H) (hS : 0 < S)
    (rs : List DesignResult)
    (h : (generateDesignConceptV1 jparse plannerText synth W H S).1 = .ok rs) :
    ∀ r ∈ rs,
      (∃ d, r.redesignedImageUrl = cropToOriginalAspectRatio (Image.fromInline d) W H S) ∧
      r.redesignedImageUrl.width / r.redesignedImageUrl.height = W / H := by
  intro r hr
  unfold generateDesignConceptV1 at h
  cases hp : parsePlansV1 jparse plannerText with
  | error e => rw [hp] at h; simp at h
  | ok ds =>
    rw [hp] at h
    rw [runV1_fst] at h
    cases hall : promiseAll ((List.range (ds.map decodePlan).length).map synth) with
    | error e => rw [hall] at h; simp at h
    | ok responses =>
      rw [hall] at h
      unfold assembleV1 at h
      rcases promiseAll_ok_mem _ _ _ h r hr with ⟨pr, _, hbuild⟩
      rcases buildDesignV1_ok W H S pr.1 pr.2 r hbuild with ⟨d, _, _, _, hurl⟩
      refine ⟨⟨d, hurl⟩, ?_⟩
      rw [hurl]
      simpa [cropToOriginalAspectRatio, Image.width, Image.height] using
        cropRect_ratio W H S hW hH hS

/-- The crop rectangle of the scenario above, evaluated: the 1024 by
576 content band starting 224 pixels down. -/
theorem cropRect_1600_900_1024 : cropRect 1600 900 1024 = ⟨0, 224, 1024, 576⟩ := by
  norm_num [cropRect]

/-- Witness for C1 (amended): the first variant, run on the concrete
two-design plan and square synthesis responses for a 1600 by 900
original, succeeds and every returned image is a crop with aspect ratio
1600 / 900. -/
theorem v1_designs_cropped_witness :
    (generateDesignConceptV1 jparsePlans2 plannerJson2 synthSquare 1600 900 1024).1 = .ok resultsV1 ∧
    ∀ r ∈ resultsV1,
      (∃ d, r.redesignedImageUrl = cropToOriginalAspectRatio (Image.fromInline d) 1600 900 1024) ∧
      r.redesignedImageUrl.width / r.redesignedImageUrl.height = 1600 / 900 := by
  have hEval : (generateDesignConceptV1 jparsePlans2 plannerJson2 synthSquare 1600 900 1024).1
      = .ok resultsV1 := by rfl
  exact ⟨hEval, v1_designs_cropped_to_original_aspect jparsePlans2 plannerJson2 synthSquare
    1600 900 1024 (by norm_num) (by norm_num) (by norm_num) resultsV1 hEval⟩

/-- Counterexample to C1 as stated: the SECOND `generateDesignConcept`
variant succeeds while returning the raw square synthesis image — the
returned `redesignedImageUrl` has aspect ratio 1 (1024 by 1024), not
the aspect ratio of a non-square upload such as 1600 by 900, because no
`cropToOriginalAspectRatio` call occurs in that variant. -/
theorem v2_returns_uncropped_square :
    (generateDesignConceptV2 jparseOne plannerJsonOne synthSquare).1 = .ok [squareResultV2] ∧
    squareResultV2.redesignedImageUrl.width / squareResultV2.redesignedImageUrl.height = 1 ∧
    ((1600 : ℚ) / 900 = 1) = False := by
  refine ⟨by rfl, by norm_num [squareResultV2, Image.width, Image.height], by norm_num⟩

/-- C3 (amended): in the FIRST `generateDesignConcept` variant, a
planning response with no extractable JSON structure, an unparseable
extract, or a `designs` array whose length differs from 2 makes plan
parsing fail; plan parsing only succeeds with exactly 2 entries; and a
plan-parse failure aborts the whole request with no image-synthesis
call issued (empty synthesis trace). -/
theorem v1_plan_parse_aborts_before_synthesis
    (jparse : String → Option Json) (text : String)
    (synth : ℕ → Except String (List RespPart)) (W H S : ℚ) :
    (extractBraced text = none → ∃ e, parsePlansV1 jparse text = .error e) ∧
    (∀ js, extractBraced text = some js → jparse js = none →
      ∃ e, parsePlansV1 jparse text = .error e) ∧
    (∀ js j ds, extractBraced text = some js → jparse js = some j →
      j.getField "designs" = some (Json.arr ds) → ds.length ≠ 2 →
      ∃ e, parsePlansV1 jparse text = .error e) ∧
    (∀ ds, parsePlansV1 jparse text = .ok ds → ds.length = 2) ∧
    (∀ e, parsePlansV1 jparse text = .error e →
      generateDesignConceptV1 jparse text synth W H S = (.error e, [])) := by
  refine ⟨?_, ?_, ?_, ?_, ?_⟩
  · intro hext
    exact ⟨"The AI failed to return a valid design plan. Please try again.",
      by simp [parsePlansV1, hext]⟩
  · intro js hext hjp
    exact ⟨"The AI failed to return a valid design plan. Please try again.",
      by simp [parsePlansV1, hext, hjp]⟩
  · intro js j ds hext hjp hfield hlen
    exact ⟨"The design plan was incomplete or malformed.",
      by simp [parsePlansV1, hext, hjp, hfield, hlen]⟩
  · intro ds hok
    cases hext : extractBraced text with
    | none => simp [parsePlansV1, hext] at hok
    | some js =>
      cases hjp : jparse js with
      | none => simp [parsePlansV1, hext, hjp] at hok
      | some j =>
        cases hfield : j.getField "designs" with
        | none => simp [parsePlansV1, hext, hjp, hfield] at hok
        | some v =>
          cases v with
          | arr ds2 =>
            by_cases hlen : ds2.length = 2
            · simp [parsePlansV1, hext, hjp, hfield, hlen] at hok
              subst hok
              exact hlen
            · simp [parsePlansV1, hext, hjp, hfield, hlen] at hok
          | null => simp [parsePlansV1, hext, hjp, hfield] at hok
          | bool b => simp [parsePlansV1, hext, hjp, hfield] at hok
          | num q => simp [parsePlansV1, hext, hjp, hfield] at hok
          | str s2 => simp [parsePlansV1, hext, hjp, hfield] at hok
          | obj fs => simp [parsePlansV1, hext, hjp, hfield] at hok
  · intro e herr
    unfold generateDesignConceptV1
    rw [herr]

/-- Witness for C3 (amended): a planner response with no JSON structure
makes the first variant abort with the plan-parse error and an empty
synthesis trace. -/
theorem v1_plan_parse_aborts_witness :
    extractBraced "no structure here" = none ∧
    (∃ e, parsePlansV1 (fun _ => none) "no structure here" = .error e) ∧
    generateDesignConceptV1 (fun _ => none) "no structure here" synthSquare 1600 900 1024
      = (.error "The AI failed to return a valid design plan. Please try again.", []) := by
  have hth := v1_plan_parse_aborts_before_synthesis (fun _ => none) "no structure here"
    synthSquare 1600 900 1024
  exact ⟨by rfl, hth.1 (by rfl), hth.2.2.2.2 _ (by rfl)⟩

/-- Counterexample to C3 as stated: the SECOND `generateDesignConcept`
variant, fed a plan response parsing to THREE design entries, does not
fail — it issues three image-synthesis calls and returns three designs,
so a parsed count different from the requested 2 neither raises a
plan-parse error nor aborts before synthesis. -/
theorem v2_proceeds_with_three_plans :
    generateDesignConceptV2 jparseThree plannerJson3 synthSquare
      = (.ok resultsV2three,
         [SynthEvent.issue 0, SynthEvent.awaited 0,
          SynthEvent.issue 1, SynthEvent.awaited 1,
          SynthEvent.issue 2, SynthEvent.awaited 2]) := by
  rfl

/-- Inversion of a failing per-plan assembly in the first variant: it
fails exactly when no inline part is present, and the error names the
design title. -/
theorem buildDesignV1_error (W H S : ℚ) (plan : DesignPlan) (parts : List RespPart) (e : String)
    (h : buildDesignV1 W H S plan parts = .error e) :
    findInlinePart parts = none ∧ e = missingImageMsg plan.designTitle := by
  unfold buildDesignV1 at h
  cases hf : findInlinePart parts with
  | none =>
    rw [hf] at h
    simp only [Except.error.injEq] at h
    exact ⟨rfl, h.symm⟩
  | some d => rw [hf] at h; simp at h

/-- A successful `promiseAll` over a mapped list means `f` succeeded on
every input. -/
theorem promiseAll_ok_all {α β : Type} (f : α → Except String β) (xs : List α) (rs : List β)
    (h : promiseAll (xs.map f) = .ok rs) : ∀ x ∈ xs, ∃ b, f x = .ok b := by
  induction xs generalizing rs with
  | nil => simp
  | cons x xs ih =>
    simp only [List.map_cons] at h
    cases hx : f x with
    | error e => rw [hx] at h; simp [promiseAll] at h
    | ok b =>
      rw [hx] at h
      simp only [promiseAll] at h
      cases hrec : promiseAll (xs.map f) with
      | error e => rw [hrec] at h; simp at h
      | ok bs =>
        intro y hy
        rcases List.mem_cons.mp hy with h1 | h2
        · exact ⟨b, by rw [h1, hx]⟩
        · exact ih bs hrec y h2

/-- C4 (amended): in the FIRST `generateDesignConcept` variant, if any
synthesis response carries no inline-image part then the whole assembly
fails with the error naming the offending design title, and a
successful assembly returns exactly one design per plan with every
response carrying an image — all N or none, nothing silently skipped. -/
theorem v1_missing_image_part_fails_batch
    (W H S : ℚ) (plans : List DesignPlan) (responses : List (List RespPart))
    (hlen : responses.length = plans.length) :
    ((∃ pr ∈ plans.zip responses, findInlinePart pr.2 = none) →
      ∃ pr ∈ plans.zip responses, findInlinePart pr.2 = none ∧
        assembleV1 W H S plans responses = .error (missingImageMsg pr.1.designTitle)) ∧
    (∀ rs, assembleV1 W H S plans responses = .ok rs →
      rs.length = plans.length ∧ ∀ pr ∈ plans.zip responses, findInlinePart pr.2 ≠ none) := by
  constructor
  · intro hex
    have hex2 : ∃ pr ∈ plans.zip responses, ∃ e,
        buildDesignV1 W H S pr.1 pr.2 = .error e := by
      rcases hex with ⟨pr, hpr, hnone⟩
      exact ⟨pr, hpr, missingImageMsg pr.1.designTitle, by
        unfold buildDesignV1; rw [hnone]⟩
    rcases promiseAll_error_first (fun pr => buildDesignV1 W H S pr.1 pr.2)
      (plans.zip responses) hex2 with ⟨pr, hpr, e, herr, hall⟩
    rcases buildDesignV1_error W H S pr.1 pr.2 e herr with ⟨hnone, he⟩
    refine ⟨pr, hpr, hnone, ?_⟩
    unfold assembleV1
    rw [hall, he]
  · intro rs hok
    unfold assembleV1 at hok
    constructor
    · have := promiseAll_ok_length _ _ hok
      simpa [List.length_zip, hlen] using this
    · intro pr hpr
      rcases promiseAll_ok_all _ _ _ hok pr hpr with ⟨r, hr⟩
      rcases buildDesignV1_ok W H S pr.1 pr.2 r hr with ⟨d, hd, _⟩
      simp [hd]

/-- Witness for C4 (amended): with the first response lacking an image
part, the first variant fails the whole batch with the error naming the
first design. -/
theorem v1_missing_image_witness :
    responsesMissingC.length = plansTwoC.length ∧
    (∃ pr ∈ plansTwoC.zip responsesMissingC, findInlinePart pr.2 = none) ∧
    (∃ pr ∈ plansTwoC.zip responsesMissingC, findInlinePart pr.2 = none ∧
      assembleV1 1600 900 1024 plansTwoC responsesMissingC
        = .error (missingImageMsg pr.1.designTitle)) := by
  have hex : ∃ pr ∈ plansTwoC.zip responsesMissingC, findInlinePart pr.2 = none := by
    refine ⟨(⟨"Elegant Refresh", "desc a", "prompt a"⟩, respNoImage), ?_, by rfl⟩
    simp [plansTwoC, responsesMissingC]
  exact ⟨by rfl, hex,
    (v1_missing_image_part_fails_batch 1600 900 1024 plansTwoC responsesMissingC (by rfl)).1 hex⟩

/-- Counterexample to C4 as stated: the SECOND `generateDesignConcept`
variant, fed two plans where the first synthesis response has no
inline-image part, succeeds with exactly ONE design — the missing-image
design is silently skipped, violating both the ImagePartMissingError
failure and the all-or-none guarantee. -/
theorem v2_silently_skips_missing_image :
    (generateDesignConceptV2 jparsePlans2 plannerJson2 synthFirstMissing).1
      = .ok [{ designTitle := "Cozy Minimalist"
             , redesignedImageUrl := Image.fromInline ⟨"image/jpeg", "WkZB", 1024, 1024⟩
             , designDescription := "desc b" }] ∧
    (parsePlansV2 jparsePlans2 plannerJson2).map List.length = .ok 2 := by
  exact ⟨by rfl, by rfl⟩

/-- Indexwise order of a successful assembly in the first variant: the
i-th result carries the title and description of the i-th plan. -/
theorem assembleV1_order
    (W H S : ℚ) (plans : List DesignPlan) (responses : List (List RespPart))
    (rs : List DesignResult)
    (hlen : responses.length = plans.length)
    (h : assembleV1 W H S plans responses = .ok rs) :
    rs.length = plans.length ∧
    ∀ i (h1 : i < plans.length) (h2 : i < rs.length),
      (rs.get ⟨i, h2⟩).designTitle = (plans.get ⟨i, h1⟩).designTitle ∧
      (rs.get ⟨i, h2⟩).designDescription = (plans.get ⟨i, h1⟩).designDescription := by
  unfold assembleV1 at h
  have hlen2 : rs.length = (plans.zip responses).length := by
    simpa using promiseAll_ok_length _ _ h
  have hzlen : (plans.zip responses).length = plans.length := by
    simp [List.length_zip, hlen]
  refine ⟨by rw [hlen2, hzlen], ?_⟩
  intro i h1 h2
  have hzi : i < (plans.zip responses).length := by rw [hzlen]; exact h1
  have hget := promiseAll_ok_get _ _ _ h i hzi h2
  have hri : i < responses.length := by rw [hlen]; exact h1
  have hzget : (plans.zip responses).get ⟨i, hzi⟩
      = (plans.get ⟨i, h1⟩, responses.get ⟨i, hri⟩) := by
    simp [List.get_eq_getElem, List.getElem_zip]
  rw [hzget] at hget
  rcases buildDesignV1_ok W H S _ _ _ hget with ⟨d, _, ht, hd, _⟩
  exact ⟨ht, hd⟩

/-- A successful sequential loop of the second variant returns titles
forming an order-preserving sublist of the plan titles. -/
theorem runV2_ok_sublist (synth : ℕ → Except String (List RespPart)) (i : ℕ)
    (plans : List TextDesign) (rs : List DesignResult)
    (h : (runV2 synth i plans).1 = .ok rs) :
    List.Sublist (rs.map DesignResult.designTitle) (plans.map TextDesign.designTitle) := by
  induction plans generalizing i rs with
  | nil =>
    simp only [runV2] at h
    simp only [Except.ok.injEq] at h
    subst h
    simp
  | cons plan rest ih =>
    simp only [runV2] at h
    cases hs : synth i with
    | error e => rw [hs] at h; simp at h
    | ok parts =>
      rw [hs] at h
      simp only [] at h
      cases hf : findInlinePart parts with
      | none =>
        rw [hf] at h
        exact (ih (i + 1) rs h).cons _
      | some d =>
        rw [hf] at h
        cases htail : (runV2 synth (i + 1) rest).1 with
        | error e => rw [htail] at h; simp at h
        | ok results =>
          rw [htail] at h
          simp only [Except.ok.injEq] at h
          subst h
          simpa using (ih (i + 1) results htail).cons₂ plan.designTitle

/-- C5 (amended): for every positive original geometry, designs come
back in plan order: in the FIRST variant a successful assembly returns
exactly one result per plan with the i-th result built from the i-th
plan; in the SECOND variant a successful run returns a title list that
is an order-preserving sublist of the plan titles (plans whose
synthesis response lacked an image part are dropped, so indices may
shift). -/
theorem results_follow_plan_order (W H S : ℚ) :
    (∀ plans responses rs, responses.length = plans.length →
      assembleV1 W H S plans responses = .ok rs →
      rs.length = plans.length ∧
      ∀ i (h1 : i < plans.length) (h2 : i < rs.length),
        (rs.get ⟨i, h2⟩).designTitle = (plans.get ⟨i, h1⟩).designTitle ∧
        (rs.get ⟨i, h2⟩).designDescription = (plans.get ⟨i, h1⟩).designDescription) ∧
    (∀ synth i plans rs, (runV2 synth i plans).1 = .ok rs →
      List.Sublist (rs.map DesignResult.designTitle) (plans.map TextDesign.designTitle)) :=
  ⟨fun plans responses rs hlen h => assembleV1_order W H S plans responses rs hlen h,
   fun synth i plans rs h => runV2_ok_sublist synth i plans rs h⟩

/-- Witness for C5 (amended): the first variant on two concrete plans
returns exactly two results, in plan order. -/
theorem results_follow_plan_order_witness :
    assembleV1 1600 900 1024 plansTwoC responsesBothC = .ok resultsBothC ∧
    resultsBothC.length = plansTwoC.length := by
  have h := (results_follow_plan_order 1600 900 1024).1 plansTwoC responsesBothC resultsBothC
    (by rfl) (by rfl)
  exact ⟨by rfl, h.1⟩

/-- Counterexample to C5 as stated: in the SECOND variant, when the
first synthesis response lacks an image part, the call still succeeds
but the design at index 0 carries the title of the SECOND plan — the
i-th DesignResult is not built from the i-th DesignPlan. -/
theorem v2_first_result_from_second_plan :
    ((generateDesignConceptV2 jparsePlans2 plannerJson2 synthFirstMissing).1.map
      (fun rs => rs.map DesignResult.designTitle)) = .ok ["Cozy Minimalist"] ∧
    ((parsePlansV2 jparsePlans2 plannerJson2).map
      (fun ds => (ds.map decodeTextDesign).map TextDesign.designTitle))
      = .ok ["Elegant Refresh", "Cozy Minimalist"] ∧
    ("Cozy Minimalist" = "Elegant Refresh") = False := by
  refine ⟨by rfl, by rfl, by simp⟩

/-- C6: a failing applyEdit in the results stage leaves the session in
`results` with the active design index, the design list and the
edited-image override all unchanged; only an in-place alert reports the
failure. -/
theorem edit_failure_preserves_results_state
    (s : AppState) (editFn : Image → Except String Image) (d : DesignResult) (e : String)
    (hstage : s.stage = Stage.results)
    (hd : s.designs.get? s.activeDesignIndex = some d)
    (hfail : editFn (s.editedImageUrl.getD d.redesignedImageUrl) = .error e) :
    (handleEditPrompt editFn s).stage = Stage.results ∧
    (handleEditPrompt editFn s).activeDesignIndex = s.activeDesignIndex ∧
    (handleEditPrompt editFn s).designs = s.designs ∧
    (handleEditPrompt editFn s).editedImageUrl = s.editedImageUrl ∧
    (handleEditPrompt editFn s).alertMsg = some ("Failed to apply edit: " ++ e) := by
  simp only [handleEditPrompt, hd, hfail]
  simp [hstage]

/-- Witness for C6: a failed edit on a concrete results-stage session
keeps stage, index, designs and override intact and sets the alert. -/
theorem edit_failure_preserves_results_state_witness :
    stateResultsC.stage = Stage.results ∧
    stateResultsC.designs.get? stateResultsC.activeDesignIndex = some edResult ∧
    (handleEditPrompt editFnFail stateResultsC).stage = Stage.results ∧
    (handleEditPrompt editFnFail stateResultsC).activeDesignIndex
      = stateResultsC.activeDesignIndex ∧
    (handleEditPrompt editFnFail stateResultsC).designs = stateResultsC.designs ∧
    (handleEditPrompt editFnFail stateResultsC).editedImageUrl
      = stateResultsC.editedImageUrl ∧
    (handleEditPrompt editFnFail stateResultsC).alertMsg
      = some ("Failed to apply edit: " ++ "quota exhausted") := by
  have h := edit_failure_preserves_results_state stateResultsC editFnFail edResult
    "quota exhausted" (by rfl) (by rfl) (by rfl)
  exact ⟨by rfl, by rfl, h.1, h.2.1, h.2.2.1, h.2.2.2.1, h.2.2.2.2⟩

/-- C7 (amended): selecting a design clears the edited-image override
whenever the selected index DIFFERS from the active one (both variants),
and the `part_000` variant clears it unconditionally; but in the
`App.tsx` variant, selecting the already-active index is a no-op (see
the counterexample). -/
theorem selectDesign_clears_edit_when_switching (s : AppState) (i : ℕ) :
    (i ≠ s.activeDesignIndex →
      (handleSelectDesign s i).editedImageUrl = none ∧
      (handleSelectDesign s i).activeDesignIndex = i) ∧
    (handleSelectDesignAlways s i).editedImageUrl = none ∧
    (handleSelectDesignAlways s i).activeDesignIndex = i := by
  refine ⟨fun hne => ?_, rfl, rfl⟩
  constructor <;> simp [handleSelectDesign, hne]

/-- Witness for C7 (amended): switching from index 0 to index 1 clears
the override in both variants. -/
theorem selectDesign_clears_edit_witness :
    (1 ≠ stateWithEditC.activeDesignIndex) ∧
    (handleSelectDesign stateWithEditC 1).editedImageUrl = none ∧
    (handleSelectDesign stateWithEditC 1).activeDesignIndex = 1 ∧
    (handleSelectDesignAlways stateWithEditC 1).editedImageUrl = none := by
  have h := selectDesign_clears_edit_when_switching stateWithEditC 1
  have hne : (1:ℕ) ≠ stateWithEditC.activeDesignIndex := by decide
  exact ⟨hne, (h.1 hne).1, (h.1 hne).2, h.2.1⟩

/-- Counterexample to C7 as stated: in the `App.tsx` variant, selecting
the index that is already active leaves the edited-image override in
place — `selectDesign(i)` does NOT always clear it. -/
theorem selectDesign_same_index_keeps_edit :
    stateWithEditC.activeDesignIndex = 0 ∧
    (handleSelectDesign stateWithEditC 0).editedImageUrl
      = some (Image.fromInline ⟨"image/png", "RURJVA", 1024, 576⟩) ∧
    (some (Image.fromInline (⟨"image/png", "RURJVA", 1024, 576⟩ : InlineData))
      = (none : Option Image)) = False := by
  refine ⟨by rfl, by rfl, by simp⟩

/-- Splitting on a character that does not occur returns the whole
list as the single segment. -/
theorem splitOnCharList_no_occurrence (c : Char) (xs : List Char) (h : c ∉ xs) :
    splitOnCharList c xs = [xs] := by
  induction xs with
  | nil => rfl
  | cons x xs ih =>
    have hxc : ¬ x = c := fun he => h (he ▸ List.mem_cons_self x xs)
    have h1 : c ∉ xs := fun hm => h (List.mem_cons_of_mem _ hm)
    simp [splitOnCharList, hxc, ih h1]

/-- Splitting at the first occurrence of the separator: the segment
before it, then the split of the rest. -/
theorem splitOnCharList_append (c : Char) (xs ys : List Char) (h : c ∉ xs) :
    splitOnCharList c (xs ++ c :: ys) = xs :: splitOnCharList c ys := by
  induction xs with
  | nil => simp [splitOnCharList]
  | cons x xs ih =>
    have hxc : ¬ x = c := fun he => h (he ▸ List.mem_cons_self x xs)
    have h1 : c ∉ xs := fun hm => h (List.mem_cons_of_mem _ hm)
    simp [splitOnCharList, hxc, ih h1]

/-- `takeUntilSemi` at the first semicolon, when no line terminator
precedes it. -/
theorem takeUntilSemi_append (m r : List Char) (h : ';' ∉ m)
    (hlt : ∀ c ∈ m, isLineTerminator c = false) :
    takeUntilSemi (m ++ ';' :: r) = some m := by
  induction m with
  | nil => simp [takeUntilSemi]
  | cons x xs ih =>
    have hx : ¬ x = ';' := fun he => h (he ▸ List.mem_cons_self x xs)
    have hxl : isLineTerminator x = false := hlt x (List.mem_cons_self x xs)
    have h1 : ';' ∉ xs := fun hm => h (List.mem_cons_of_mem _ hm)
    have h2 : ∀ c ∈ xs, isLineTerminator c = false :=
      fun c hc => hlt c (List.mem_cons_of_mem _ hc)
    simp [takeUntilSemi, hx, hxl, ih h1 h2]

/-- The header regex skips characters before the first colon. -/
theorem mimeMatch_cons_ne (c : Char) (cs : List Char) (h : ¬ c = ':') :
    mimeMatch (c :: cs) = mimeMatch cs := by
  simp [mimeMatch, h]

/-- The header regex applied to a `data:` header captures exactly the
MIME type when the MIME type contains no semicolon and no line
terminator. -/
theorem mimeMatch_dataHeader (m : List Char) (hsemi : ';' ∉ m)
    (hlt : ∀ c ∈ m, isLineTerminator c = false) :
    mimeMatch (("data:").data ++ (m ++ (";base64").data)) = some m := by
  show mimeMatch ('d' :: 'a' :: 't' :: 'a' :: ':' :: (m ++ (";base64").data)) = some m
  rw [mimeMatch_cons_ne 'd' _ (by decide), mimeMatch_cons_ne 'a' _ (by decide),
      mimeMatch_cons_ne 't' _ (by decide), mimeMatch_cons_ne 'a' _ (by decide)]
  have hb : (";base64").data = ';' :: ("base64").data := by rfl
  rw [hb]
  simp [mimeMatch, takeUntilSemi_append m _ hsemi hlt]

/-- C8 (amended): the first-variant conversion `dataUrlToPart` fails on
a reference with no comma separator, fails on an unmatchable MIME-type
header, and inverts the data-URL construction: for every transmittable
image with a nonempty MIME type free of semicolons, commas and line
terminators, and a comma-free payload, parsing the built reference
returns the image unchanged (codec round-trip); each side condition is
necessary, as the counterexample shows. -/
theorem dataUrlToPart_format_errors_and_roundtrip :
    (∀ url : List Char, ',' ∉ url → dataUrlToPart url = .error "Invalid data URL") ∧
    (∀ url : List Char, 2 ≤ (splitOnCharList ',' url).length →
      mimeMatch ((splitOnCharList ',' url).headD []) = none →
      dataUrlToPart url = .error "Could not parse MIME type from data URL") ∧
    (∀ t : TransImage, t.mimeType ≠ [] → ';' ∉ t.mimeType → ',' ∉ t.mimeType →
      (∀ c ∈ t.mimeType, isLineTerminator c = false) →
      ',' ∉ t.data → dataUrlToPart (mkDataUrl t) = .ok t) := by
  refine ⟨?_, ?_, ?_⟩
  · intro url h
    unfold dataUrlToPart
    rw [splitOnCharList_no_occurrence ',' url h]
    rfl
  · intro url hlen hmm
    unfold dataUrlToPart
    rw [if_neg (by omega), hmm]
  · rintro ⟨m, p⟩ hne hsemi hcm hlt hcp
    have hsplit : splitOnCharList ',' (mkDataUrl ⟨m, p⟩)
        = (("data:").data ++ (m ++ (";base64").data)) :: [p] := by
      have hform : mkDataUrl ⟨m, p⟩
          = (("data:").data ++ (m ++ (";base64").data)) ++ ',' :: p := by
        show ("data:").data ++ m ++ (";base64,").data ++ p
          = ("data:").data ++ (m ++ (";base64").data) ++ ',' :: p
        have hb : (";base64,").data = (";base64").data ++ [','] := by rfl
        rw [hb]
        simp [List.append_assoc]
      rw [hform]
      rw [splitOnCharList_append ',' _ p (by
        simp only [List.mem_append]
        rintro (h | h | h)
        · revert h; decide
        · exact hcm h
        · revert h; decide)]
      rw [splitOnCharList_no_occurrence ',' p hcp]
    unfold dataUrlToPart
    rw [hsplit]
    simp only [List.length_cons, List.length_nil]
    rw [if_neg (by omega)]
    simp only [List.headD_cons]
    rw [mimeMatch_dataHeader m hsemi hlt]
    simp [hne]

/-- Witness for C8 (amended): a round trip on a concrete PNG image and
a format failure on a comma-free reference. -/
theorem dataUrlToPart_roundtrip_witness :
    (("image/png").data ≠ ([] : List Char)) ∧
    dataUrlToPart (mkDataUrl ⟨("image/png").data, ("QUJD").data⟩)
      = .ok ⟨("image/png").data, ("QUJD").data⟩ ∧
    dataUrlToPart (("hello").data) = .error "Invalid data URL" := by
  refine ⟨by decide, ?_, ?_⟩
  · exact dataUrlToPart_format_errors_and_roundtrip.2.2 ⟨("image/png").data, ("QUJD").data⟩
      (by decide) (by decide) (by decide) (by decide) (by decide)
  · exact dataUrlToPart_format_errors_and_roundtrip.1 (("hello").data) (by decide)

/-- Counterexample to C8 as stated: the second-variant conversion
`dataUrlToGenerativePart` never fails — on a reference with no comma it
returns a value whose MIME type is the `image/png` fallback (not parsed
from the reference) and whose payload is absent, and on a reference
whose header has no parseable MIME type it silently falls back as well.
Moreover even the first-variant conversion `dataUrlToPart` does not
round-trip every `TransImage`, so the unconditional round-trip law also
fails, one concrete failure per side condition of the amended law: an
empty MIME type is rejected as unparseable; a semicolon in the MIME
type truncates it at the semicolon; a comma in the MIME type breaks the
split and makes the header unparseable; a line feed in the MIME type
defeats the header regex (whose dot cannot cross line terminators); a
comma in the payload truncates the payload at the comma. -/
theorem dataUrl_reference_parsing_counterexamples :
    dataUrlToGenerativePart (("not-a-data-url").data)
      = { mimeType := ("image/png").data, data := none } ∧
    dataUrlToGenerativePart (("garbage,abc").data)
      = { mimeType := ("image/png").data, data := some (("abc").data) } ∧
    dataUrlToPart (mkDataUrl ⟨[], ("QUJD").data⟩)
      = .error "Could not parse MIME type from data URL" ∧
    dataUrlToPart (mkDataUrl ⟨("a;b").data, ("QUJD").data⟩)
      = .ok ⟨("a").data, ("QUJD").data⟩ ∧
    (("a").data = ("a;b").data) = False ∧
    dataUrlToPart (mkDataUrl ⟨("a,b").data, ("QUJD").data⟩)
      = .error "Could not parse MIME type from data URL" ∧
    dataUrlToPart (mkDataUrl ⟨['a', Char.ofNat 10, 'b'], ("QUJD").data⟩)
      = .error "Could not parse MIME type from data URL" ∧
    dataUrlToPart (mkDataUrl ⟨("image/png").data, ("QU,JD").data⟩)
      = .ok ⟨("image/png").data, ("QU").data⟩ ∧
    (("QU").data = ("QU,JD").data) = False := by
  refine ⟨by rfl, by rfl, by rfl, by rfl, by decide, by rfl, by rfl, by rfl, by decide⟩

/-- The trace component of the synthesis stage of the first variant:
all issue events, then all await events, whatever the outcomes. -/
theorem runV1_snd (synth : ℕ → Except String (List RespPart)) (W H S : ℚ)
    (plans : List DesignPlan) :
    (runV1 synth W H S plans).2 =
      (List.range plans.length).map SynthEvent.issue ++
      (List.range plans.length).map SynthEvent.awaited := by
  unfold runV1
  cases hall : promiseAll ((List.range plans.length).map synth) with
  | error e => simp [hall]
  | ok responses => simp [hall]

/-- A trace of issue events followed by await events has all issues
first. -/
theorem allIssuedFirst_issues_awaits (is as : List ℕ) :
    allIssuedFirst (is.map SynthEvent.issue ++ as.map SynthEvent.awaited) = true := by
  induction is with
  | nil =>
    cases as with
    | nil => rfl
    | cons a as =>
      simp only [List.map_nil, List.nil_append, List.map_cons, allIssuedFirst]
      simp [List.all_eq_true, isIssueEvent]
  | cons i is ih => simpa [allIssuedFirst] using ih

/-- C9 (amended): in the FIRST `generateDesignConcept` variant the
synthesis stage issues all N calls before awaiting any of them (the
trace has all issue events first, and every index below N is issued),
and the join is all-or-nothing: one rejected call fails the whole
batch, and a successful batch implies every call succeeded. -/
theorem v1_synthesis_concurrent_all_or_nothing
    (synth : ℕ → Except String (List RespPart)) (W H S : ℚ) (plans : List DesignPlan) :
    allIssuedFirst (runV1 synth W H S plans).2 = true ∧
    (∀ i, i < plans.length → SynthEvent.issue i ∈ (runV1 synth W H S plans).2) ∧
    (∀ i e, i < plans.length → synth i = .error e →
      ∃ e2, (runV1 synth W H S plans).1 = .error e2) ∧
    (∀ rs, (runV1 synth W H S plans).1 = .ok rs →
      ∀ i, i < plans.length → ∃ parts, synth i = .ok parts) := by
  refine ⟨?_, ?_, ?_, ?_⟩
  · rw [runV1_snd]
    exact allIssuedFirst_issues_awaits _ _
  · intro i hi
    rw [runV1_snd]
    exact List.mem_append.mpr (Or.inl (List.mem_map_of_mem _ (List.mem_range.mpr hi)))
  · intro i e hi herr
    have hex : ∃ x ∈ List.range plans.length, ∃ e0, synth x = .error e0 :=
      ⟨i, List.mem_range.mpr hi, e, herr⟩
    rcases promiseAll_error_first synth (List.range plans.length) hex with
      ⟨j, hj, e2, hje, hall⟩
    rw [runV1_fst, hall]
    exact ⟨e2, rfl⟩
  · intro rs hok i hi
    rw [runV1_fst] at hok
    cases hall : promiseAll ((List.range plans.length).map synth) with
    | error e => rw [hall] at hok; simp at hok
    | ok responses =>
      exact promiseAll_ok_all synth (List.range plans.length) responses hall i
        (List.mem_range.mpr hi)

/-- Witness for C9 (amended): with two concrete plans and an
all-succeeding synthesis stub, the first variant issues calls 0 and 1
before any await and both issue events are in the trace. -/
theorem v1_synthesis_concurrent_witness :
    allIssuedFirst (runV1 synthSquare 1600 900 1024 plansTwoC).2 = true ∧
    SynthEvent.issue 0 ∈ (runV1 synthSquare 1600 900 1024 plansTwoC).2 ∧
    SynthEvent.issue 1 ∈ (runV1 synthSquare 1600 900 1024 plansTwoC).2 := by
  have h := v1_synthesis_concurrent_all_or_nothing synthSquare 1600 900 1024 plansTwoC
  exact ⟨h.1, h.2.1 0 (by decide), h.2.1 1 (by decide)⟩

/-- Counterexample to C9 as stated: the SECOND variant awaits call 0
before issuing call 1 (its trace interleaves issue and await events and
fails the all-issued-first check), and when the remote service rejects
call 0, call 1 is never issued at all — the N calls are not dispatched
concurrently. -/
theorem v2_synthesis_sequential :
    (generateDesignConceptV2 jparsePlans2 plannerJson2 synthSquare).2
      = [SynthEvent.issue 0, SynthEvent.awaited 0,
         SynthEvent.issue 1, SynthEvent.awaited 1] ∧
    allIssuedFirst (generateDesignConceptV2 jparsePlans2 plannerJson2 synthSquare).2 = false ∧
    (runV2 synthRejectFirst 0 plansTextTwo).2 = [SynthEvent.issue 0, SynthEvent.awaited 0] ∧
    (SynthEvent.issue 1 ∈ (runV2 synthRejectFirst 0 plansTextTwo).2) = False := by
  refine ⟨by rfl, by rfl, by rfl, by simp; decide⟩

/-- C10: in the object-identification variant, whenever the
product-finder response has no fenced JSON block that parses to an
array of objects each carrying `objectName` and `products`,
`parseProductResponse` returns the empty list instead of raising, and
`generateDesign` still resolves successfully with the generated image
and zero identified objects. -/
theorem product_parse_failures_swallowed
    (jparse : List Char → Option Json) (imageGenParts : List RespPart)
    (productText : List Char) (d : InlineData)
    (hinline : findInlinePart imageGenParts = some d)
    (hbad : ∀ block, extractFencedJson productText = some block →
      ∀ j, jparse block = some j → isValidProductArray j = false) :
    parseProductResponse jparse productText = [] ∧
    generateDesign jparse imageGenParts productText
      = .ok { imageUrl := ("data:").data ++ d.mimeType.data ++ (";base64,").data ++ d.data.data
            , identifiedObjects := [] } := by
  have hpp : parseProductResponse jparse productText = [] := by
    cases hext : extractFencedJson productText with
    | none => simp [parseProductResponse, hext]
    | some block =>
      cases hjp : jparse block with
      | none => simp [parseProductResponse, hext, hjp]
      | some j =>
        have hval := hbad block hext j hjp
        simp [parseProductResponse, hext, hjp, hval]
  refine ⟨hpp, ?_⟩
  unfold generateDesign
  rw [hinline, hpp]

/-- Witness for C10: a plain-text product response with no fenced block
leaves zero identified objects while `generateDesign` still succeeds. -/
theorem product_parse_failures_swallowed_witness :
    findInlinePart [RespPart.inlinePart ⟨"image/png", "QUJD", 1024, 1024⟩]
      = some ⟨"image/png", "QUJD", 1024, 1024⟩ ∧
    parseProductResponse (fun _ => none) (("no structured data today").data) = [] ∧
    generateDesign (fun _ => none) [RespPart.inlinePart ⟨"image/png", "QUJD", 1024, 1024⟩]
        (("no structured data today").data)
      = .ok { imageUrl := ("data:").data ++ ("image/png").data ++ (";base64,").data ++ ("QUJD").data
            , identifiedObjects := [] } := by
  have h := product_parse_failures_swallowed (fun _ => none)
    [RespPart.inlinePart ⟨"image/png", "QUJD", 1024, 1024⟩]
    (("no structured data today").data) ⟨"image/png", "QUJD", 1024, 1024⟩
    (by rfl) (fun block hext j hjp => by simp at hjp)
  exact ⟨by rfl, h.1, by rw [h.2]⟩
